import Mathlib

set_option maxHeartbeats 1000000

/-
Verification development for the filter/follower manager of
gravwell/filewatch (filters.go).  The Go code is shallowly embedded:
maps become association lists, the shared mutable int64 offset cells
become a small heap (cell id -> value), and the external collaborators
(the follower type, filepath helpers, the stat/walk filesystem calls and
the durable state file) are abstracted into an environment record whose
fields follow the collaborator contract of the specification.
-/

/-- Go error values as they appear in filters.go: fresh message errors,
the combination produced by appendErr, os.ErrInvalid (returned by
Close on a nil os.File) and ErrFailedSeek. -/
inductive Err where
  | msg (s : String)
  | appended (a b : Err)
  | errInvalid
  | failedSeek
deriving DecidableEq, Repr

/-- FileName from filters.go: a tracking key (filter base name, file path). -/
structure FileName where
  BaseName : String
  FilePath : String
deriving DecidableEq, Repr

/-- filter from filters.go: config name, watched (cleaned) location,
glob patterns and an opaque handler reference. -/
structure filter where
  bname : String
  loc : String
  mtchs : List String
  lh : Nat
deriving DecidableEq, Repr

/-- Modelled from the spec: the follower collaborator (follower.go is not
part of this slice).  Per the collaborator contract it exposes its
embedded FileName (mutable for rekeying), the file identity and filter id
recorded at creation, a reference to its offset cell, and a Close whose
result we record as data (closeErr). -/
structure Follower where
  name : FileName
  fid : Nat
  filterId : Int
  state : Nat
  closeErr : Option Err
  lh : Nat
deriving DecidableEq, Repr

/-- Modelled from the spec: behavior of the durable state file handle
(seek/truncate/encode/close results), abstracting os.File and gob. -/
structure StateFout where
  seekErr : Option Err
  seekPos : Int
  truncErr : Option Err
  encodeErr : Option Err
  closeErr : Option Err
deriving DecidableEq, Repr

/-- FilterManager from filters.go.  followers and states are the two
maps keyed by FileName; states maps to offset-cell ids whose values
live in the cells heap (modelling the shared *int64 cells). -/
structure FilterManager where
  filters : List filter
  followers : List (FileName × Follower)
  states : List (FileName × Nat)
  cells : List (Nat × Int)
  nextCell : Nat
  stateFile : String
  stateFout : Option StateFout
deriving DecidableEq, Repr

/-- Observable lifecycle events issued by the manager: a Close or a
Start call on a follower object. -/
inductive Event where
  | closeF (fl : Follower)
  | startF (fl : Follower)
deriving DecidableEq, Repr

/-- Result of a manager operation: returned error, final manager state,
and the follower lifecycle events issued. -/
structure Out where
  err : Option Err
  fm : FilterManager
  evs : List Event
deriving DecidableEq, Repr

/-- Result of checkRename: either a Go panic (out of range registry
index) or (isRename, err, state, events). -/
inductive CRRes where
  | panicked
  | res (isRename : Bool) (o : Out)
deriving DecidableEq, Repr

/-- Result of launchFollowers / NewFollower / LoadFile, which can
propagate a panic out of checkRename. -/
inductive LRes where
  | panicked
  | out (o : Out)
deriving DecidableEq, Repr

/-- Result of an os.Stat call in cleanStates: missing file, other stat
error, or the file with its size. -/
inductive StatRes where
  | notExist
  | statErr (e : Err)
  | found (size : Int)
deriving DecidableEq, Repr

/-- Modelled from the spec: the external collaborators of filters.go —
the file identity function, the recursive directory walk (regular files
in visit order), filepath.Match/Base/Dir/Clean, os.Stat, and the
follower constructor and Start results (NewFollower and Start may
fail; a freshly built follower gets its Close behavior). -/
structure Env where
  fileId : String → Except Err Nat
  walk : String → List String
  pmatch : String → String → Option Bool
  basename : String → String
  dirname : String → String
  clean : String → String
  stat : String → StatRes
  mkErr : String → Option Err
  startErr : String → Option Err
  newCloseErr : String → Option Err

/-- Association list lookup (Go map read). -/
def alook {α β : Type} [DecidableEq α] (l : List (α × β)) (k : α) : Option β :=
  (l.find? fun p => decide (p.1 = k)).map Prod.snd

/-- Association list delete (Go map delete). -/
def adel {α β : Type} [DecidableEq α] (l : List (α × β)) (k : α) : List (α × β) :=
  l.filter fun p => decide (p.1 ≠ k)

/-- Association list insert/overwrite (Go map assignment). -/
def aset {α β : Type} [DecidableEq α] (l : List (α × β)) (k : α) (v : β) : List (α × β) :=
  (k, v) :: adel l k

theorem alook_nil {α β : Type} [DecidableEq α] (k : α) :
    alook ([] : List (α × β)) k = none := rfl

theorem alook_cons {α β : Type} [DecidableEq α] (a : α × β) (l : List (α × β)) (k : α) :
    alook (a :: l) k = if a.1 = k then some a.2 else alook l k := by
  by_cases h : a.1 = k
  · simp [alook, List.find?, h]
  · simp [alook, List.find?, h]

theorem adel_cons {α β : Type} [DecidableEq α] (a : α × β) (l : List (α × β)) (k : α) :
    adel (a :: l) k = if a.1 = k then adel l k else a :: adel l k := by
  by_cases h : a.1 = k
  · simp [adel, List.filter_cons, h]
  · simp [adel, List.filter_cons, h]

theorem alook_adel_self {α β : Type} [DecidableEq α] (l : List (α × β)) (k : α) :
    alook (adel l k) k = none := by
  induction l with
  | nil => rfl
  | cons a t ih =>
    rw [adel_cons]
    by_cases h : a.1 = k
    · simpa [h] using ih
    · rw [if_neg h, alook_cons, if_neg h]
      exact ih

theorem alook_adel_ne {α β : Type} [DecidableEq α] (l : List (α × β)) (k k' : α)
    (h : k' ≠ k) : alook (adel l k) k' = alook l k' := by
  induction l with
  | nil => rfl
  | cons a t ih =>
    rw [adel_cons, alook_cons]
    by_cases ha : a.1 = k
    · have hak : ¬ a.1 = k' := by
        intro hc; exact h (hc ▸ ha)
      rw [if_pos ha, if_neg hak]
      exact ih
    · rw [if_neg ha, alook_cons]
      by_cases hk : a.1 = k'
      · rw [if_pos hk, if_pos hk]
      · rw [if_neg hk, if_neg hk]
        exact ih

theorem alook_aset_self {α β : Type} [DecidableEq α] (l : List (α × β)) (k : α) (v : β) :
    alook (aset l k v) k = some v := by
  simp [aset, alook_cons]

theorem alook_aset_ne {α β : Type} [DecidableEq α] (l : List (α × β)) (k k' : α) (v : β)
    (h : k' ≠ k) : alook (aset l k v) k' = alook l k' := by
  have : k ≠ k' := fun hc => h hc.symm
  simp [aset, alook_cons, this]
  exact alook_adel_ne l k k' h

theorem mem_adel {α β : Type} [DecidableEq α] (l : List (α × β)) (k : α) (p : α × β)
    (h : p ∈ adel l k) : p ∈ l ∧ p.1 ≠ k := by
  unfold adel at h
  have := List.of_mem_filter h
  exact ⟨List.mem_of_mem_filter h, by simpa using this⟩

instance {e a : Type} [DecidableEq e] [DecidableEq a] : DecidableEq (Except e a) :=
  fun x y =>
    match x, y with
    | .error u, .error v =>
      if h : u = v then .isTrue (by rw [h]) else .isFalse (by simp [h])
    | .ok u, .ok v =>
      if h : u = v then .isTrue (by rw [h]) else .isFalse (by simp [h])
    | .error _, .ok _ => .isFalse (by simp)
    | .ok _, .error _ => .isFalse (by simp)

/-- appendErr from filters.go: nil first argument yields the new error,
otherwise the two are combined (fmt.Errorf "%v : %v"). -/
def appendErr (err : Option Err) (nerr : Err) : Err :=
  match err with
  | none => nerr
  | some e => .appended e nerr

/-- matchFile from filters.go: true iff some pattern glob-matches the
base name; a pattern error counts as non-match. -/
def matchFile (env : Env) (mtchs : List String) (fname : String) : Bool :=
  mtchs.any fun m =>
    match env.pmatch m fname with
    | some true => true
    | _ => false

/-- The filepath.Walk body of findFileId from filters.go, over the list
of regular files produced by the walk: the first file whose base name
matches the patterns and whose identity equals id wins; an identity
error on a matching file aborts the walk (later files are skipped once
a hit is recorded, which the early return models). -/
def findFileIdGo (env : Env) (mtchs : List String) (id : Nat) :
    List String → Except Err (Option String)
  | [] => .ok none
  | fpath :: rest =>
    if matchFile env mtchs (env.basename fpath) = true then
      match env.fileId fpath with
      | .error e => .error e
      | .ok lid =>
        if lid = id then .ok (some fpath)
        else findFileIdGo env mtchs id rest
    else findFileIdGo env mtchs id rest

/-- findFileId from filters.go: walk the filter base directory. -/
def FilterManager.findFileId (env : Env) (base : String) (mtchs : List String) (id : Nat) :
    Except Err (Option String) :=
  findFileIdGo env mtchs id (env.walk base)

/-- The loop body of checkRename from filters.go, iterating over a
snapshot of the followers map.  An out-of-range recorded filter id
panics: the range test on line 400 only sets removeFollower and does
not guard the registry indexing on line 405. -/
def checkRenameLoop (env : Env) (fpath : String) (id : Nat) :
    List (FileName × Follower) → FilterManager → Bool → List Event → CRRes
  | [], fm, isr, evs => .res isr ⟨none, fm, evs⟩
  | (k, v) :: rest, fm, isr, evs =>
    if v.fid = id then
      let fname := env.basename fpath
      let fdir := env.dirname fpath
      if v.filterId < 0 then .panicked
      else
        match fm.filters[v.filterId.toNat]? with
        | none => .panicked
        | some flt =>
          if flt.loc ≠ fdir ∨ matchFile env flt.mtchs fname ≠ true then
            let fm1 := { fm with states := adel fm.states k,
                                 followers := adel fm.followers k }
            let k' := { k with FilePath := fpath }
            let v' := { v with name := { v.name with FilePath := fpath } }
            let fm2 := { fm1 with states := aset fm1.states k' v'.state,
                                  followers := aset fm1.followers k' v' }
            checkRenameLoop env fpath id rest fm2 true evs
          else
            match v.closeErr with
            | some e => .res isr ⟨some e, fm, evs ++ [.closeF v]⟩
            | none =>
              let fm1 := { fm with states := adel fm.states k,
                                   followers := adel fm.followers k }
              checkRenameLoop env fpath id rest fm1 isr (evs ++ [.closeF v])
    else checkRenameLoop env fpath id rest fm isr evs

/-- checkRename from filters.go. -/
def FilterManager.checkRename (env : Env) (fm : FilterManager) (fpath : String) (id : Nat) :
    CRRes :=
  checkRenameLoop env fpath id fm.followers fm false []

/-- addFollower from filters.go, after the duplicate check succeeded:
construct the follower (NewFollower), start it (close and fail on a
start error), and register it. -/
def addFollowerLaunch (env : Env) (fm : FilterManager) (bname fpath : String)
    (si : Nat) (filterId : Int) (lh : Nat) (id : Nat) (evs : List Event) : Out :=
  match env.mkErr fpath with
  | some e => ⟨some e, fm, evs⟩
  | none =>
    let fl : Follower :=
      { name := ⟨bname, fpath⟩, fid := id, filterId := filterId, state := si,
        closeErr := env.newCloseErr fpath, lh := lh }
    match env.startErr fpath with
    | some e => ⟨some e, fm, evs ++ [.startF fl, .closeF fl]⟩
    | none =>
      ⟨none, { fm with followers := aset fm.followers ⟨bname, fpath⟩ fl },
       evs ++ [.startF fl]⟩

/-- addFollower from filters.go: compute the identity of the path; if a
follower already occupies the key, either discard it (different
identity) or fail with the duplicate error (same identity); then build,
start and register the new follower. -/
def FilterManager.addFollower (env : Env) (fm : FilterManager) (bname fpath : String)
    (si : Nat) (filterId : Int) (lh : Nat) : Out :=
  let stid : FileName := ⟨bname, fpath⟩
  match env.fileId fpath with
  | .error e => ⟨some e, fm, []⟩
  | .ok id =>
    match alook fm.followers stid with
    | some flw =>
      if flw.fid ≠ id then
        let fm1 := { fm with followers := adel fm.followers stid,
                             states := adel fm.states stid }
        match flw.closeErr with
        | some e => ⟨some e, fm1, [.closeF flw]⟩
        | none => addFollowerLaunch env fm1 bname fpath si filterId lh id [.closeF flw]
      else ⟨some (.msg "duplicate follower"), fm, []⟩
    | none => addFollowerLaunch env fm bname fpath si filterId lh id []

/-- seekInfo from filters.go: look for an offset cell for the key. -/
def FilterManager.seekInfo (fm : FilterManager) (bname fpath : String) : Option Nat :=
  alook fm.states ⟨bname, fpath⟩

/-- addSeekInfo from filters.go: allocate a fresh zero cell and record
it in the state map; returns the cell with the updated manager. -/
def FilterManager.addSeekInfo (fm : FilterManager) (bname fpath : String) :
    Nat × FilterManager :=
  let si := fm.nextCell
  (si, { fm with cells := aset fm.cells si 0,
                 nextCell := fm.nextCell + 1,
                 states := aset fm.states ⟨bname, fpath⟩ si })

/-- The filter loop of launchFollowers from filters.go: for each filter
whose location is the path directory and whose patterns match the base
name, resolve an offset cell (existing state only when deleteState is
false) and add a follower; the filter index rides along. -/
def launchLoop (env : Env) (fpath fname fdir : String) (deleteState : Bool) :
    List filter → Nat → FilterManager → List Event → Out
  | [], _, fm, evs => ⟨none, fm, evs⟩
  | v :: rest, i, fm, evs =>
    if v.loc ≠ fdir ∨ matchFile env v.mtchs fname ≠ true then
      launchLoop env fpath fname fdir deleteState rest (i + 1) fm evs
    else
      let si0 := if deleteState then none else fm.seekInfo v.bname fpath
      let sip : Nat × FilterManager :=
        match si0 with
        | some s => (s, fm)
        | none => fm.addSeekInfo v.bname fpath
      let o := FilterManager.addFollower env sip.2 v.bname fpath sip.1 (i : Int) v.lh
      match o.err with
      | some e => ⟨some e, o.fm, evs ++ o.evs⟩
      | none => launchLoop env fpath fname fdir deleteState rest (i + 1) o.fm (evs ++ o.evs)

/-- launchFollowers from filters.go: identity, rename check (which may
panic), then one follower per matching filter. -/
def FilterManager.launchFollowers (env : Env) (fm : FilterManager) (fpath : String)
    (deleteState : Bool) : LRes :=
  match env.fileId fpath with
  | .error e => .out ⟨some e, fm, []⟩
  | .ok id =>
    match fm.checkRename env fpath id with
    | .panicked => .panicked
    | .res isRename o =>
      match o.err with
      | some e => .out ⟨some e, o.fm, o.evs⟩
      | none =>
        if isRename then .out ⟨none, o.fm, o.evs⟩
        else
          .out (launchLoop env fpath (env.basename fpath) (env.dirname fpath)
            deleteState o.fm.filters 0 o.fm o.evs)

/-- NewFollower (the manager method) from filters.go: launch with the
existing state deleted. -/
def FilterManager.NewFollower (env : Env) (fm : FilterManager) (fpath : String) : LRes :=
  fm.launchFollowers env fpath true

/-- LoadFile from filters.go: launch reusing persisted state. -/
def FilterManager.LoadFile (env : Env) (fm : FilterManager) (fpath : String) : LRes :=
  fm.launchFollowers env fpath false

/-- AddFilter from filters.go: append the filter with a cleaned
location (the method always returns nil). -/
def FilterManager.AddFilter (env : Env) (fm : FilterManager) (bname loc : String)
    (mtchs : List String) (lh : Nat) : FilterManager :=
  { fm with filters := fm.filters ++ [{ bname := bname, loc := env.clean loc,
                                        mtchs := mtchs, lh := lh }] }

/-- The loop of nolockRemoveFollower from filters.go: for each filter,
delete and close any follower at (filter name, path); a close failure
is returned at once. -/
def removeLoop (fpath : String) :
    List filter → FilterManager → List Event → Out
  | [], fm, evs => ⟨none, fm, evs⟩
  | v :: rest, fm, evs =>
    let stid : FileName := ⟨v.bname, fpath⟩
    match alook fm.followers stid with
    | none => removeLoop fpath rest fm evs
    | some fl =>
      let fm1 := { fm with followers := adel fm.followers stid,
                           states := adel fm.states stid }
      match fl.closeErr with
      | some e => ⟨some e, fm1, evs ++ [.closeF fl]⟩
      | none => removeLoop fpath rest fm1 (evs ++ [.closeF fl])

/-- nolockRemoveFollower from filters.go. -/
def FilterManager.nolockRemoveFollower (fm : FilterManager) (fpath : String) : Out :=
  removeLoop fpath fm.filters fm []

/-- RemoveFollower from filters.go (the lock is not modelled). -/
def FilterManager.RemoveFollower (fm : FilterManager) (fpath : String) : Out :=
  fm.nolockRemoveFollower fpath

/-- The identity scan of RenameFollower from filters.go: the last
follower in iteration order whose recorded FilePath equals fpath
supplies the identity. -/
def renameScan (fpath : String) : List (FileName × Follower) → Option Nat
  | [] => none
  | (_, flw) :: rest =>
    match renameScan fpath rest with
    | some id => some id
    | none => if flw.name.FilePath = fpath then some flw.fid else none

/-- The filter loop of RenameFollower from filters.go.  For each filter
with a follower at (filter name, fpath): search the filter directory by
identity; on a walk error close and drop the follower and return the
error; on a hit resolve: same path no-op, different filter id migrates
(zero the cell and addFollower at the new path), same filter id rekeys
(the follower FileName is assigned the old key before the local key
variable gets the new path, and the old state entry is not deleted).
Returns none when the loop falls through. -/
def renameLoop (env : Env) (fpath : String) (id : Nat) :
    List filter → Nat → FilterManager → Option Out
  | [], _, _ => none
  | v :: rest, i, fm =>
    let stid : FileName := ⟨v.bname, fpath⟩
    match alook fm.followers stid with
    | none => renameLoop env fpath id rest (i + 1) fm
    | some flw =>
      match findFileIdGo env v.mtchs id (env.walk v.loc) with
      | .error e =>
        some ⟨some e, { fm with states := adel fm.states stid,
                                followers := adel fm.followers stid }, [.closeF flw]⟩
      | .ok none => renameLoop env fpath id rest (i + 1) fm
      | .ok (some p) =>
        if p = fpath then some ⟨none, fm, []⟩
        else if flw.filterId ≠ (i : Int) then
          match alook fm.states stid with
          | none =>
            some ⟨some (.msg "Failed to find old state"),
                  { fm with followers := adel fm.followers stid }, [.closeF flw]⟩
          | some st =>
            let fm1 := { fm with followers := adel fm.followers stid,
                                 states := adel fm.states stid }
            match flw.closeErr with
            | some e => some ⟨some e, fm1, [.closeF flw]⟩
            | none =>
              let fm2 := { fm1 with cells := aset fm1.cells st 0 }
              let o := FilterManager.addFollower env fm2 v.bname p st (i : Int) v.lh
              some ⟨o.err, o.fm, .closeF flw :: o.evs⟩
        else
          let fm1 := { fm with followers := adel fm.followers stid }
          let flw' := { flw with name := stid }
          match alook fm.states stid with
          | none =>
            some ⟨some (.msg "failed to find state on rename"), fm1, [.closeF flw']⟩
          | some st =>
            let stid' : FileName := ⟨v.bname, p⟩
            some ⟨none, { fm1 with states := aset fm1.states stid' st,
                                   followers := aset fm1.followers stid' flw' }, []⟩

/-- RenameFollower from filters.go: recover the identity from the
follower keyed at fpath (no-op when none), run the filter loop, and
fall back to nolockRemoveFollower when the identity is found nowhere. -/
def FilterManager.RenameFollower (env : Env) (fm : FilterManager) (fpath : String) : Out :=
  match renameScan fpath fm.followers with
  | none => ⟨none, fm, []⟩
  | some id =>
    match renameLoop env fpath id fm.filters 0 fm with
    | some o => o
    | none => fm.nolockRemoveFollower fpath

/-- The follower loop of Close from filters.go: close every follower,
accumulating failures with appendErr; also returns the close events. -/
def closeFollowers : List (FileName × Follower) → Option Err → Option Err × List Event
  | [], acc => (acc, [])
  | (_, v) :: rest, acc =>
    let acc' : Option Err :=
      match v.closeErr with
      | some lerr => some (appendErr acc lerr)
      | none => acc
    let r := closeFollowers rest acc'
    (r.1, .closeF v :: r.2)

/-- dumpStates from filters.go: nil handle no-ops; then seek to 0
(ErrFailedSeek on a nonzero position), truncate and encode. -/
def FilterManager.dumpStates (fm : FilterManager) : Option Err :=
  match fm.stateFout with
  | none => none
  | some sf =>
    match sf.seekErr with
    | some e => some e
    | none =>
      if sf.seekPos ≠ 0 then some .failedSeek
      else
        match sf.truncErr with
        | some e => some e
        | none => sf.encodeErr

/-- Close on the durable handle: Go os.File.Close on a nil receiver
returns os.ErrInvalid. -/
def fileCloseRes : Option StateFout → Option Err
  | none => some .errInvalid
  | some sf => sf.closeErr

/-- Close from filters.go: close all followers merging failures, nil
the followers and filters, dump the states (its error shadows the
merged one), close the handle (its error also shadows), and only on
success nil the handle and return the merged follower errors. -/
def FilterManager.Close (fm : FilterManager) : Out :=
  let r := closeFollowers fm.followers none
  let fm1 := { fm with followers := [], filters := [] }
  match fm1.dumpStates with
  | some e => ⟨some e, fm1, r.2⟩
  | none =>
    match fileCloseRes fm1.stateFout with
    | some e => ⟨some e, fm1, r.2⟩
    | none => ⟨r.1, { fm1 with stateFout := none }, r.2⟩

/-- The loop of cleanStates from filters.go over a snapshot of the
loaded state map: a missing file deletes the entry, another stat error
aborts, a present file smaller than the (non-nil) recorded offset
resets the cell to 0. -/
def cleanStatesLoop (env : Env) :
    List (FileName × Nat) → List (FileName × Nat) → List (Nat × Int) →
    Except Err (List (FileName × Nat) × List (Nat × Int))
  | [], st, cells => .ok (st, cells)
  | (k, c) :: rest, st, cells =>
    match env.stat k.FilePath with
    | .statErr e => .error e
    | .notExist => cleanStatesLoop env rest (adel st k) cells
    | .found size =>
      match alook cells c with
      | none => cleanStatesLoop env rest st cells
      | some v =>
        if size < v then cleanStatesLoop env rest st (aset cells c 0)
        else cleanStatesLoop env rest st cells

/-- cleanStates from filters.go. -/
def cleanStates (env : Env) (states : List (FileName × Nat)) (cells : List (Nat × Int)) :
    Except Err (List (FileName × Nat) × List (Nat × Int)) :=
  cleanStatesLoop env states states cells

/-- The pairing property of the claim set: every key in the follower
table also appears in the state map with the cell its follower holds. -/
def pairedB (fm : FilterManager) : Bool :=
  fm.followers.all fun kf => decide (alook fm.states kf.1 = some kf.2.state)

/-- Whether the combined error x contains (mentions) the error e, with
appendErr combinations searched on both sides. -/
def Err.mentions : Err → Err → Bool
  | .appended a b, e =>
    decide (Err.appended a b = e) || a.mentions e || b.mentions e
  | x, e => decide (x = e)

/-- Whether a stat result is an error other than not-exists. -/
def isStatErr : StatRes → Bool
  | .statErr _ => true
  | _ => false

/-- Environment for the rename-check scenarios: paths under /logs, a
catch-all glob, and identity 7 for both the old and the new name. -/
def envCR : Env :=
  { fileId := fun p => if p = "/logs/new" ∨ p = "/logs/old" then .ok 7 else .error (.msg "stat")
    walk := fun _ => []
    pmatch := fun m _ => some (m == "*")
    basename := fun p => if p = "/logs/new" then "new" else if p = "/logs/old" then "old" else p
    dirname := fun _ => "/logs"
    clean := fun p => p
    stat := fun _ => .notExist
    mkErr := fun _ => none
    startErr := fun _ => none
    newCloseErr := fun _ => none }

/-- A follower of identity 7 recorded under filter 0 at /logs/old. -/
def flwC1 : Follower :=
  { name := ⟨"f", "/logs/old"⟩, fid := 7, filterId := 0, state := 0,
    closeErr := none, lh := 0 }

/-- Manager with one filter watching /logs with a catch-all pattern and
the follower flwC1 tracked with offset 4096. -/
def fmC1 : FilterManager :=
  { filters := [{ bname := "f", loc := "/logs", mtchs := ["*"], lh := 0 }]
    followers := [(⟨"f", "/logs/old"⟩, flwC1)]
    states := [(⟨"f", "/logs/old"⟩, 0)]
    cells := [(0, 4096)]
    nextCell := 1
    stateFile := ""
    stateFout := none }

/-- fmC1 after checkRename: the follower and its state are gone. -/
def fmC1res : FilterManager :=
  { fmC1 with followers := [], states := [] }

/-- C1: refuted on the code.  The follower flwC1 has a valid filter id
(0) and the notified path /logs/new lies in that filter's directory and
matches its pattern, so the claim requires checkRename to move the
follower to the new key and report the event handled; instead the code
(the inverted condition on filters.go line 405) closes the follower,
removes it and its offset cell, and reports isRename = false. -/
theorem checkRename_valid_matching_removes :
    FilterManager.checkRename envCR fmC1 "/logs/new" 7 =
      .res false ⟨none, fmC1res, [.closeF flwC1]⟩ := by
  decide

/-- A follower whose recorded filter id 1 is out of range for a
registry holding a single filter. -/
def flwC2 : Follower :=
  { name := ⟨"f", "/logs/old"⟩, fid := 7, filterId := 1, state := 0,
    closeErr := none, lh := 0 }

/-- Manager with one filter but a follower recording filter id 1. -/
def fmC2 : FilterManager :=
  { filters := [{ bname := "f", loc := "/logs", mtchs := ["*"], lh := 0 }]
    followers := [(⟨"f", "/logs/old"⟩, flwC2)]
    states := [(⟨"f", "/logs/old"⟩, 0)]
    cells := [(0, 4096)]
    nextCell := 1
    stateFile := ""
    stateFout := none }

/-- C2: refuted on the code.  With a follower whose recorded filter id
(1) is not a valid index into the one-filter registry, the claim
requires checkRename to close and remove the follower without ever
indexing out of range; instead the range test on filters.go line 400
only sets a flag and the indexing on line 405 still runs, so the call
panics. -/
theorem checkRename_invalid_filter_id_panics :
    FilterManager.checkRename envCR fmC2 "/logs/new" 7 = .panicked := by
  decide

/-- Environment for the RenameFollower scenarios: the walk of /d finds
the file "new", identities of "old" and "new" are both 7, every
pattern of the form * matches, and base/dir are the identity and /d. -/
def envRN : Env :=
  { fileId := fun p => if p = "new" ∨ p = "old" then .ok 7 else .error (.msg "stat")
    walk := fun d => if d = "/d" then ["new"] else []
    pmatch := fun m _ => some (m == "*")
    basename := fun p => p
    dirname := fun _ => "/d"
    clean := fun p => p
    stat := fun _ => .notExist
    mkErr := fun _ => none
    startErr := fun _ => none
    newCloseErr := fun _ => none }

/-- A follower of identity 7 under filter 0 keyed at ("f", old). -/
def flwC3 : Follower :=
  { name := ⟨"f", "old"⟩, fid := 7, filterId := 0, state := 0,
    closeErr := none, lh := 0 }

/-- Manager for the same-filter rename: one filter ("f", /d, *), the
follower flwC3, and its offset cell holding 42. -/
def fmC3 : FilterManager :=
  { filters := [{ bname := "f", loc := "/d", mtchs := ["*"], lh := 0 }]
    followers := [(⟨"f", "old"⟩, flwC3)]
    states := [(⟨"f", "old"⟩, 0)]
    cells := [(0, 42)]
    nextCell := 1
    stateFile := ""
    stateFout := none }

/-- C3: counterexample.  RenameFollower finds "new" under the
follower's own filter and rekeys without error, but contrary to the
claim the old key ("f", old) is still present in the state map after
the call, and the follower registered at the new key still records the
old path (filters.go assigns flw.FileName before the key variable gets
the new path, and never deletes the old state entry). -/
theorem RenameFollower_rekey_leaves_old_state :
    (FilterManager.RenameFollower envRN fmC3 "old").err = none ∧
    alook (FilterManager.RenameFollower envRN fmC3 "old").fm.states ⟨"f", "old"⟩ = some 0 ∧
    (alook (FilterManager.RenameFollower envRN fmC3 "old").fm.followers ⟨"f", "new"⟩).map
      (fun fl => fl.name.FilePath) = some "old" := by
  decide

/-- A state-file handle whose seek, truncate, encode and close all
succeed from position 0. -/
def sfOK : StateFout :=
  { seekErr := none, seekPos := 0, truncErr := none, encodeErr := none, closeErr := none }

/-- An idle manager holding an open, well-behaved state file. -/
def fmC4 : FilterManager :=
  { filters := [], followers := [], states := [], cells := [],
    nextCell := 0, stateFile := "s", stateFout := some sfOK }

/-- fmC4 after a successful Close: the handle field is nil. -/
def fmC4closed : FilterManager :=
  { fmC4 with stateFout := none }

/-- C4: counterexample.  The first Close succeeds and releases the
handle, but the second Close returns os.ErrInvalid: filters.go calls
Close on the now-nil handle without a guard, and a nil os.File returns
ErrInvalid, contradicting the claim that the second call does not
return an error. -/
theorem Close_twice_returns_errInvalid :
    FilterManager.Close fmC4 = ⟨none, fmC4closed, []⟩ ∧
    FilterManager.Close fmC4closed = ⟨some .errInvalid, fmC4closed, []⟩ := by
  decide

/-- A follower of identity 7 keyed at ("g", old) that records filter
id 3, different from the index 0 of the registry filter named g. -/
def flwC10 : Follower :=
  { name := ⟨"g", "old"⟩, fid := 7, filterId := 3, state := 0,
    closeErr := none, lh := 0 }

/-- Manager for the migration rename: the single filter ("g", /d, *),
the follower flwC10 with a stale filter id, and its cell holding 10. -/
def fmC10 : FilterManager :=
  { filters := [{ bname := "g", loc := "/d", mtchs := ["*"], lh := 0 }]
    followers := [(⟨"g", "old"⟩, flwC10)]
    states := [(⟨"g", "old"⟩, 0)]
    cells := [(0, 10)]
    nextCell := 1
    stateFile := ""
    stateFout := none }

/-- C10: counterexample.  fmC10 satisfies the pairing property, and the
public operation RenameFollower succeeds on it (migration branch: the
identity is found under a filter other than the follower's recorded
one), yet the resulting manager violates the property: the fresh
follower is registered at ("g", new) while the state map holds no
entry for that key (addFollower never inserts one and the old entry
was deleted). -/
theorem RenameFollower_migration_breaks_pairing :
    pairedB fmC10 = true ∧
    (FilterManager.RenameFollower envRN fmC10 "old").err = none ∧
    pairedB (FilterManager.RenameFollower envRN fmC10 "old").fm = false := by
  decide

/-- C9: confirmed.  When addFollower targets a key already occupied by
a follower flw: if flw's recorded identity differs from the identity of
the new path (and the close, constructor and start succeed), the stale
follower is closed, it and its offset cell are removed, and the fresh
follower is constructed, started and registered at the key; if the
identities are identical, the duplicate-follower error is returned with
the manager untouched and no close or start issued. -/
theorem addFollower_occupied_key_spec (env : Env) (fm : FilterManager)
    (bname fpath : String) (si : Nat) (filterId : Int) (lh : Nat)
    (flw : Follower) (id : Nat)
    (hlook : alook fm.followers ⟨bname, fpath⟩ = some flw)
    (hid : env.fileId fpath = .ok id) :
    (flw.fid ≠ id → flw.closeErr = none → env.mkErr fpath = none →
      env.startErr fpath = none →
      (FilterManager.addFollower env fm bname fpath si filterId lh).err = none ∧
      (FilterManager.addFollower env fm bname fpath si filterId lh).evs =
        [.closeF flw,
         .startF { name := ⟨bname, fpath⟩, fid := id, filterId := filterId,
                   state := si, closeErr := env.newCloseErr fpath, lh := lh }] ∧
      alook (FilterManager.addFollower env fm bname fpath si filterId lh).fm.followers
          ⟨bname, fpath⟩ =
        some { name := ⟨bname, fpath⟩, fid := id, filterId := filterId,
               state := si, closeErr := env.newCloseErr fpath, lh := lh } ∧
      alook (FilterManager.addFollower env fm bname fpath si filterId lh).fm.states
          ⟨bname, fpath⟩ = none ∧
      (FilterManager.addFollower env fm bname fpath si filterId lh).fm.cells = fm.cells) ∧
    (flw.fid = id →
      FilterManager.addFollower env fm bname fpath si filterId lh =
        ⟨some (.msg "duplicate follower"), fm, []⟩) := by
  constructor
  · intro hne hclose hmk hstart
    simp only [FilterManager.addFollower, hid, hlook, if_pos hne, hclose,
      addFollowerLaunch, hmk, hstart]
    exact ⟨trivial, by simp, alook_aset_self _ _ _, alook_adel_self _ _, trivial⟩
  · intro heq
    simp only [FilterManager.addFollower, hid, hlook]
    rw [if_neg (by simp [heq])]

/-- A stale follower at ("h", new) whose identity 5 differs from the
current identity 7 of the file "new". -/
def flwC9 : Follower :=
  { name := ⟨"h", "new"⟩, fid := 5, filterId := 0, state := 4,
    closeErr := none, lh := 0 }

/-- Manager occupying the key ("h", new) with the stale flwC9. -/
def fmC9 : FilterManager :=
  { filters := [], followers := [(⟨"h", "new"⟩, flwC9)],
    states := [(⟨"h", "new"⟩, 4)], cells := [(4, 8)],
    nextCell := 5, stateFile := "", stateFout := none }

/-- A live follower at ("h", new) with the file's current identity 7. -/
def flwC9b : Follower :=
  { name := ⟨"h", "new"⟩, fid := 7, filterId := 0, state := 4,
    closeErr := none, lh := 0 }

/-- Manager occupying the key ("h", new) with the live flwC9b. -/
def fmC9b : FilterManager :=
  { filters := [], followers := [(⟨"h", "new"⟩, flwC9b)],
    states := [(⟨"h", "new"⟩, 4)], cells := [(4, 8)],
    nextCell := 5, stateFile := "", stateFout := none }

/-- C9: witness.  Both branches of the theorem applied to concrete
managers: the stale case replaces flwC9, the identical case reports
the duplicate error and leaves fmC9b untouched. -/
theorem addFollower_occupied_key_spec_witness :
    (alook fmC9.followers ⟨"h", "new"⟩ = some flwC9 ∧
     envRN.fileId "new" = .ok 7 ∧
     (FilterManager.addFollower envRN fmC9 "h" "new" 3 0 0).err = none ∧
     (FilterManager.addFollower envRN fmC9 "h" "new" 3 0 0).evs =
       [.closeF flwC9,
        .startF { name := ⟨"h", "new"⟩, fid := 7, filterId := 0, state := 3,
                  closeErr := envRN.newCloseErr "new", lh := 0 }] ∧
     alook (FilterManager.addFollower envRN fmC9 "h" "new" 3 0 0).fm.followers
         ⟨"h", "new"⟩ =
       some { name := ⟨"h", "new"⟩, fid := 7, filterId := 0, state := 3,
              closeErr := envRN.newCloseErr "new", lh := 0 } ∧
     alook (FilterManager.addFollower envRN fmC9 "h" "new" 3 0 0).fm.states
         ⟨"h", "new"⟩ = none ∧
     (FilterManager.addFollower envRN fmC9 "h" "new" 3 0 0).fm.cells = fmC9.cells) ∧
    (alook fmC9b.followers ⟨"h", "new"⟩ = some flwC9b ∧
     FilterManager.addFollower envRN fmC9b "h" "new" 3 0 0 =
       ⟨some (.msg "duplicate follower"), fmC9b, []⟩) := by
  constructor
  · have h := (addFollower_occupied_key_spec envRN fmC9 "h" "new" 3 0 0 flwC9 7
      (by decide) (by decide)).1 (by decide) (by decide) (by decide) (by decide)
    exact ⟨by decide, by decide, h.1, h.2.1, h.2.2.1, h.2.2.2.1, h.2.2.2.2⟩
  · have h := (addFollower_occupied_key_spec envRN fmC9b "h" "new" 3 0 0 flwC9b 7
      (by decide) (by decide)).2 (by decide)
    exact ⟨by decide, h⟩

theorem removeLoop_evs_mono (fpath : String) :
    ∀ (fs : List filter) (fm : FilterManager) (evs : List Event),
      ∃ t, (removeLoop fpath fs fm evs).evs = evs ++ t := by
  intro fs
  induction fs with
  | nil => intro fm evs; exact ⟨[], by simp [removeLoop]⟩
  | cons v rest ih =>
    intro fm evs
    simp only [removeLoop]
    cases h : alook fm.followers ⟨v.bname, fpath⟩ with
    | none => exact ih fm evs
    | some fl =>
      dsimp only
      cases hc : fl.closeErr with
      | some e => exact ⟨[.closeF fl], rfl⟩
      | none =>
        dsimp only
        obtain ⟨t, ht⟩ := ih _ (evs ++ [.closeF fl])
        exact ⟨[.closeF fl] ++ t, by rw [ht]; simp⟩

theorem alook_adel_none {α β : Type} [DecidableEq α] (l : List (α × β)) (k k' : α)
    (h : alook l k = none) : alook (adel l k') k = none := by
  by_cases e : k = k'
  · rw [e]; exact alook_adel_self _ _
  · rw [alook_adel_ne _ _ _ e]; exact h

theorem removeLoop_none_preserved (fpath : String) :
    ∀ (fs : List filter) (fm : FilterManager) (evs : List Event) (k : FileName),
      alook fm.followers k = none → alook fm.states k = none →
      alook (removeLoop fpath fs fm evs).fm.followers k = none ∧
      alook (removeLoop fpath fs fm evs).fm.states k = none := by
  intro fs
  induction fs with
  | nil => intro fm evs k h1 h2; exact ⟨h1, h2⟩
  | cons v rest ih =>
    intro fm evs k h1 h2
    simp only [removeLoop]
    cases h : alook fm.followers ⟨v.bname, fpath⟩ with
    | none => exact ih fm evs k h1 h2
    | some fl =>
      dsimp only
      cases hc : fl.closeErr with
      | some e =>
        exact ⟨alook_adel_none _ _ _ h1, alook_adel_none _ _ _ h2⟩
      | none =>
        dsimp only
        exact ih _ _ k (alook_adel_none _ _ _ h1) (alook_adel_none _ _ _ h2)

theorem removeLoop_allok (fpath : String) :
    ∀ (fs : List filter) (fm : FilterManager) (evs : List Event),
      (∀ v ∈ fs, ∀ fl, alook fm.followers ⟨v.bname, fpath⟩ = some fl →
        fl.closeErr = none) →
      (removeLoop fpath fs fm evs).err = none ∧
      (removeLoop fpath fs fm evs).fm.cells = fm.cells ∧
      ∀ v ∈ fs, ∀ fl, alook fm.followers ⟨v.bname, fpath⟩ = some fl →
        alook (removeLoop fpath fs fm evs).fm.followers ⟨v.bname, fpath⟩ = none ∧
        alook (removeLoop fpath fs fm evs).fm.states ⟨v.bname, fpath⟩ = none ∧
        Event.closeF fl ∈ (removeLoop fpath fs fm evs).evs := by
  intro fs
  induction fs with
  | nil =>
    intro fm evs _
    refine ⟨rfl, rfl, ?_⟩
    intro v hv
    exact absurd hv (List.not_mem_nil v)
  | cons v rest ih =>
    intro fm evs hok
    simp only [removeLoop]
    cases h : alook fm.followers ⟨v.bname, fpath⟩ with
    | none =>
      have hok' : ∀ u ∈ rest, ∀ fl, alook fm.followers ⟨u.bname, fpath⟩ = some fl →
          fl.closeErr = none := fun u hu => hok u (List.mem_cons_of_mem _ hu)
      obtain ⟨he, hc, hall⟩ := ih fm evs hok'
      refine ⟨he, hc, ?_⟩
      intro u hu fl hfl
      rcases List.mem_cons.mp hu with rfl | hu'
      · rw [h] at hfl; exact absurd hfl (by simp)
      · exact hall u hu' fl hfl
    | some fl =>
      dsimp only
      have hcl : fl.closeErr = none := hok v (List.mem_cons_self v rest) fl h
      rw [hcl]
      dsimp only
      have hok1 : ∀ u ∈ rest, ∀ fl',
          alook (adel fm.followers ⟨v.bname, fpath⟩) ⟨u.bname, fpath⟩ = some fl' →
          fl'.closeErr = none := by
        intro u hu fl' hfl'
        by_cases e : (⟨u.bname, fpath⟩ : FileName) = ⟨v.bname, fpath⟩
        · rw [e, alook_adel_self] at hfl'; exact absurd hfl' (by simp)
        · rw [alook_adel_ne _ _ _ e] at hfl'
          exact hok u (List.mem_cons_of_mem _ hu) fl' hfl'
      obtain ⟨he, hcells, hall⟩ := ih
        { fm with followers := adel fm.followers ⟨v.bname, fpath⟩,
                  states := adel fm.states ⟨v.bname, fpath⟩ }
        (evs ++ [.closeF fl]) hok1
      refine ⟨he, by rw [hcells], ?_⟩
      intro u hu fl'' hfl''
      have hcase : (⟨u.bname, fpath⟩ : FileName) = ⟨v.bname, fpath⟩ ∨
          ((⟨u.bname, fpath⟩ : FileName) ≠ ⟨v.bname, fpath⟩ ∧ u ∈ rest) := by
        rcases List.mem_cons.mp hu with rfl | hu'
        · exact Or.inl rfl
        · by_cases e : (⟨u.bname, fpath⟩ : FileName) = ⟨v.bname, fpath⟩
          · exact Or.inl e
          · exact Or.inr ⟨e, hu'⟩
      rcases hcase with e | ⟨e, hu'⟩
      · rw [e] at hfl''
        rw [h] at hfl''
        have hfe : fl = fl'' := by injection hfl''
        subst hfe
        rw [e]
        have hnone := removeLoop_none_preserved fpath rest
          { fm with followers := adel fm.followers ⟨v.bname, fpath⟩,
                    states := adel fm.states ⟨v.bname, fpath⟩ }
          (evs ++ [.closeF fl]) ⟨v.bname, fpath⟩
          (alook_adel_self _ _) (alook_adel_self _ _)
        refine ⟨hnone.1, hnone.2, ?_⟩
        obtain ⟨t, ht⟩ := removeLoop_evs_mono fpath rest
          { fm with followers := adel fm.followers ⟨v.bname, fpath⟩,
                    states := adel fm.states ⟨v.bname, fpath⟩ }
          (evs ++ [.closeF fl])
        rw [ht]
        simp
      · have hfl1 : alook (adel fm.followers ⟨v.bname, fpath⟩) ⟨u.bname, fpath⟩ =
            some fl'' := by
          rw [alook_adel_ne _ _ _ e]; exact hfl''
        exact hall u hu' fl'' hfl1

theorem removeLoop_fail (fpath : String) :
    ∀ (fs : List filter) (fm : FilterManager) (evs : List Event)
      (v : filter) (fl : Follower) (e : Err),
      v ∈ fs → alook fm.followers ⟨v.bname, fpath⟩ = some fl → fl.closeErr = some e →
      ∃ fl' e', fl'.closeErr = some e' ∧
        (∃ u ∈ fs, alook fm.followers ⟨u.bname, fpath⟩ = some fl') ∧
        (removeLoop fpath fs fm evs).err = some e' := by
  intro fs
  induction fs with
  | nil => intro fm evs v fl e hv; exact absurd hv (List.not_mem_nil v)
  | cons u rest ih =>
    intro fm evs v fl e hv hfl hce
    simp only [removeLoop]
    cases h : alook fm.followers ⟨u.bname, fpath⟩ with
    | none =>
      rcases List.mem_cons.mp hv with rfl | hv'
      · rw [h] at hfl; exact absurd hfl (by simp)
      · obtain ⟨fl', e', hce', ⟨w, hw, hlw⟩, herr⟩ := ih fm evs v fl e hv' hfl hce
        exact ⟨fl', e', hce', ⟨w, List.mem_cons_of_mem _ hw, hlw⟩, herr⟩
    | some flu =>
      dsimp only
      cases hcu : flu.closeErr with
      | some eu =>
        exact ⟨flu, eu, hcu, ⟨u, List.mem_cons_self u rest, h⟩, rfl⟩
      | none =>
        dsimp only
        have hvrest : v ∈ rest := by
          rcases List.mem_cons.mp hv with rfl | hv'
          · rw [h] at hfl
            have hfe : flu = fl := by injection hfl
            rw [hfe, hce] at hcu
            exact absurd hcu (by simp)
          · exact hv'
        have hne : (⟨v.bname, fpath⟩ : FileName) ≠ ⟨u.bname, fpath⟩ := by
          intro hk
          rw [hk, h] at hfl
          have hfe : flu = fl := by injection hfl
          rw [hfe, hce] at hcu
          exact absurd hcu (by simp)
        have hfl1 : alook (adel fm.followers ⟨u.bname, fpath⟩) ⟨v.bname, fpath⟩ =
            some fl := by rw [alook_adel_ne _ _ _ hne]; exact hfl
        obtain ⟨fl', e', hce', ⟨w, hw, hlw⟩, herr⟩ :=
          ih { fm with followers := adel fm.followers ⟨u.bname, fpath⟩,
                       states := adel fm.states ⟨u.bname, fpath⟩ }
            (evs ++ [.closeF flu]) v fl e hvrest hfl1 hce
        have hlw' : alook fm.followers ⟨w.bname, fpath⟩ = some fl' := by
          by_cases ew : (⟨w.bname, fpath⟩ : FileName) = ⟨u.bname, fpath⟩
          · rw [ew, alook_adel_self] at hlw; exact absurd hlw (by simp)
          · rw [alook_adel_ne _ _ _ ew] at hlw; exact hlw
        exact ⟨fl', e', hce', ⟨w, List.mem_cons_of_mem _ hw, hlw'⟩, herr⟩

/-- C8: confirmed.  RemoveFollower tears down, for every filter with a
follower at (filter name, path), that follower and its offset cell —
when all their closes succeed the call returns nil, every such
follower's key is gone from both tables, every such follower received
Close, and the offset heap is untouched; and when some such follower's
close fails, the returned error is exactly the close error of one of
the followers registered at the path (the failure is propagated, not
swallowed). -/
theorem RemoveFollower_spec (fm : FilterManager) (fpath : String) :
    ((∀ v ∈ fm.filters, ∀ fl, alook fm.followers ⟨v.bname, fpath⟩ = some fl →
        fl.closeErr = none) →
      (fm.RemoveFollower fpath).err = none ∧
      (fm.RemoveFollower fpath).fm.cells = fm.cells ∧
      ∀ v ∈ fm.filters, ∀ fl, alook fm.followers ⟨v.bname, fpath⟩ = some fl →
        alook (fm.RemoveFollower fpath).fm.followers ⟨v.bname, fpath⟩ = none ∧
        alook (fm.RemoveFollower fpath).fm.states ⟨v.bname, fpath⟩ = none ∧
        Event.closeF fl ∈ (fm.RemoveFollower fpath).evs) ∧
    (∀ v ∈ fm.filters, ∀ fl e, alook fm.followers ⟨v.bname, fpath⟩ = some fl →
      fl.closeErr = some e →
      ∃ fl' e', fl'.closeErr = some e' ∧
        (∃ u ∈ fm.filters, alook fm.followers ⟨u.bname, fpath⟩ = some fl') ∧
        (fm.RemoveFollower fpath).err = some e') := by
  constructor
  · intro hok
    exact removeLoop_allok fpath fm.filters fm [] hok
  · intro v hv fl e hfl hce
    exact removeLoop_fail fpath fm.filters fm [] v fl e hv hfl hce

/-- Follower at ("a", p), closes cleanly. -/
def flwC8a : Follower :=
  { name := ⟨"a", "p"⟩, fid := 1, filterId := 0, state := 0, closeErr := none, lh := 0 }

/-- Follower at ("b", p), closes cleanly. -/
def flwC8b : Follower :=
  { name := ⟨"b", "p"⟩, fid := 1, filterId := 1, state := 1, closeErr := none, lh := 0 }

/-- Manager following the single path p under two filters a and b. -/
def fmC8 : FilterManager :=
  { filters := [{ bname := "a", loc := "/d", mtchs := ["*"], lh := 0 },
                { bname := "b", loc := "/d", mtchs := ["*"], lh := 0 }]
    followers := [(⟨"a", "p"⟩, flwC8a), (⟨"b", "p"⟩, flwC8b)]
    states := [(⟨"a", "p"⟩, 0), (⟨"b", "p"⟩, 1)]
    cells := [(0, 5), (1, 6)]
    nextCell := 2
    stateFile := ""
    stateFout := none }

/-- Follower at ("a", p) whose close fails. -/
def flwC8f : Follower :=
  { name := ⟨"a", "p"⟩, fid := 1, filterId := 0, state := 0,
    closeErr := some (.msg "boom"), lh := 0 }

/-- Manager following p under one filter with the failing flwC8f. -/
def fmC8f : FilterManager :=
  { filters := [{ bname := "a", loc := "/d", mtchs := ["*"], lh := 0 }]
    followers := [(⟨"a", "p"⟩, flwC8f)]
    states := [(⟨"a", "p"⟩, 0)]
    cells := [(0, 5)]
    nextCell := 1
    stateFile := ""
    stateFout := none }

/-- C8: witness.  Both halves of the theorem at concrete managers: with
two filters over the same path, both followers and state entries are
removed and both got Close; with a failing close, the error comes back. -/
theorem RemoveFollower_spec_witness :
    ((FilterManager.RemoveFollower fmC8 "p").err = none ∧
     alook (FilterManager.RemoveFollower fmC8 "p").fm.followers ⟨"a", "p"⟩ = none ∧
     alook (FilterManager.RemoveFollower fmC8 "p").fm.states ⟨"a", "p"⟩ = none ∧
     Event.closeF flwC8a ∈ (FilterManager.RemoveFollower fmC8 "p").evs ∧
     alook (FilterManager.RemoveFollower fmC8 "p").fm.followers ⟨"b", "p"⟩ = none ∧
     alook (FilterManager.RemoveFollower fmC8 "p").fm.states ⟨"b", "p"⟩ = none ∧
     Event.closeF flwC8b ∈ (FilterManager.RemoveFollower fmC8 "p").evs) ∧
    (∃ fl' e', fl'.closeErr = some e' ∧
      (∃ u ∈ fmC8f.filters, alook fmC8f.followers ⟨u.bname, "p"⟩ = some fl') ∧
      (FilterManager.RemoveFollower fmC8f "p").err = some e') := by
  constructor
  · have hok : ∀ v ∈ fmC8.filters, ∀ fl,
        alook fmC8.followers ⟨v.bname, "p"⟩ = some fl → fl.closeErr = none := by
      intro v hv fl hfl
      fin_cases hv
      · dsimp only at hfl
        have h1 : alook fmC8.followers ⟨"a", "p"⟩ = some flwC8a := by decide
        rw [h1] at hfl
        injection hfl with h2
        rw [← h2]
        decide
      · dsimp only at hfl
        have h1 : alook fmC8.followers ⟨"b", "p"⟩ = some flwC8b := by decide
        rw [h1] at hfl
        injection hfl with h2
        rw [← h2]
        decide
    obtain ⟨he, hcells, hall⟩ := (RemoveFollower_spec fmC8 "p").1 hok
    have ha := hall { bname := "a", loc := "/d", mtchs := ["*"], lh := 0 }
      (by decide) flwC8a (by decide)
    have hb := hall { bname := "b", loc := "/d", mtchs := ["*"], lh := 0 }
      (by decide) flwC8b (by decide)
    exact ⟨he, ha.1, ha.2.1, ha.2.2, hb.1, hb.2.1, hb.2.2⟩
  · exact (RemoveFollower_spec fmC8f "p").2
      { bname := "a", loc := "/d", mtchs := ["*"], lh := 0 }
      (by decide) flwC8f (.msg "boom") (by decide) rfl

theorem closeFollowers_evs :
    ∀ (l : List (FileName × Follower)) (acc : Option Err),
      (closeFollowers l acc).2 = l.map fun kv => Event.closeF kv.2 := by
  intro l
  induction l with
  | nil => intro acc; rfl
  | cons kv rest ih =>
    intro acc
    simp only [closeFollowers, List.map_cons]
    rw [ih]

theorem closeFollowers_ok :
    ∀ (l : List (FileName × Follower)) (acc : Option Err),
      (∀ kv ∈ l, kv.2.closeErr = none) → (closeFollowers l acc).1 = acc := by
  intro l
  induction l with
  | nil => intro acc _; rfl
  | cons kv rest ih =>
    intro acc hok
    simp only [closeFollowers]
    rw [hok kv (List.mem_cons_self kv rest)]
    exact ih acc fun u hu => hok u (List.mem_cons_of_mem _ hu)

theorem Err.mentions_self (e : Err) : e.mentions e = true := by
  cases e <;> simp [Err.mentions]

theorem appendErr_mentions_new (acc : Option Err) (e : Err) :
    (appendErr acc e).mentions e = true := by
  cases acc with
  | none => exact Err.mentions_self e
  | some a => simp [appendErr, Err.mentions, Err.mentions_self]

theorem appendErr_mentions_mono (a x : Err) (e : Err) (h : a.mentions x = true) :
    (appendErr (some a) e).mentions x = true := by
  simp [appendErr, Err.mentions, h]

theorem closeFollowers_acc_mono :
    ∀ (l : List (FileName × Follower)) (a x : Err), a.mentions x = true →
      ∃ E, (closeFollowers l (some a)).1 = some E ∧ E.mentions x = true := by
  intro l
  induction l with
  | nil => intro a x h; exact ⟨a, rfl, h⟩
  | cons kv rest ih =>
    intro a x h
    simp only [closeFollowers]
    cases hc : kv.2.closeErr with
    | none => exact ih a x h
    | some lerr =>
      exact ih (appendErr (some a) lerr) x (appendErr_mentions_mono a x lerr h)

theorem closeFollowers_mentions :
    ∀ (l : List (FileName × Follower)) (acc : Option Err) (kv : FileName × Follower),
      kv ∈ l → ∀ e, kv.2.closeErr = some e →
      ∃ E, (closeFollowers l acc).1 = some E ∧ E.mentions e = true := by
  intro l
  induction l with
  | nil => intro acc kv hkv; exact absurd hkv (List.not_mem_nil kv)
  | cons u rest ih =>
    intro acc kv hkv e hce
    simp only [closeFollowers]
    rcases List.mem_cons.mp hkv with rfl | hkv'
    · rw [hce]
      exact closeFollowers_acc_mono rest (appendErr acc e) e (appendErr_mentions_new acc e)
    · cases hc : u.2.closeErr with
      | none => exact ih acc kv hkv' e hce
      | some lerr => exact ih (some (appendErr acc lerr)) kv hkv' e hce

/-- C6: confirmed.  Close issues a Close to every follower in the table
(the event list is exactly the closes of all followers, none skipped),
clears the follower table and filter registry and releases the handle;
when every follower closes cleanly it returns nil, and whenever a
follower's close fails with e, the single error Close returns is a
combined error that contains e (failures are merged, none discarded),
provided the state-file seek/truncate/encode/close themselves succeed. -/
theorem Close_spec (fm : FilterManager) (sf : StateFout)
    (hsf : fm.stateFout = some sf) (h1 : sf.seekErr = none) (h2 : sf.seekPos = 0)
    (h3 : sf.truncErr = none) (h4 : sf.encodeErr = none) (h5 : sf.closeErr = none) :
    (fm.Close).evs = (fm.followers.map fun kv => Event.closeF kv.2) ∧
    (fm.Close).fm.followers = [] ∧
    (fm.Close).fm.filters = [] ∧
    (fm.Close).fm.stateFout = none ∧
    ((∀ kv ∈ fm.followers, kv.2.closeErr = none) → (fm.Close).err = none) ∧
    (∀ kv ∈ fm.followers, ∀ e, kv.2.closeErr = some e →
      ∃ E, (fm.Close).err = some E ∧ E.mentions e = true) := by
  have hd : FilterManager.dumpStates { fm with followers := [], filters := [] } = none := by
    simp [FilterManager.dumpStates, hsf, h1, h2, h3, h4]
  have hfc : fileCloseRes ({ fm with followers := [], filters := [] } : FilterManager).stateFout
      = none := by
    simp only []
    rw [hsf]
    simp [fileCloseRes, h5]
  simp only [FilterManager.Close, hd, hfc]
  refine ⟨closeFollowers_evs fm.followers none, trivial, trivial, trivial, ?_, ?_⟩
  · intro hok
    exact closeFollowers_ok fm.followers none hok
  · intro kv hkv e hce
    exact closeFollowers_mentions fm.followers none kv hkv e hce

/-- Follower whose close fails with "e1". -/
def flwC6a : Follower :=
  { name := ⟨"x", "p1"⟩, fid := 1, filterId := 0, state := 0,
    closeErr := some (.msg "e1"), lh := 0 }

/-- Follower whose close fails with "e2". -/
def flwC6b : Follower :=
  { name := ⟨"y", "p2"⟩, fid := 2, filterId := 1, state := 1,
    closeErr := some (.msg "e2"), lh := 0 }

/-- Manager with two followers that both fail to close and a healthy
state-file handle. -/
def fmC6 : FilterManager :=
  { filters := [{ bname := "x", loc := "/d", mtchs := ["*"], lh := 0 }]
    followers := [(⟨"x", "p1"⟩, flwC6a), (⟨"y", "p2"⟩, flwC6b)]
    states := [(⟨"x", "p1"⟩, 0), (⟨"y", "p2"⟩, 1)]
    cells := [(0, 5), (1, 6)]
    nextCell := 2
    stateFile := "s"
    stateFout := some sfOK }

/-- C6: witness.  At the concrete fmC6 both close failures are
mentioned in the single combined error Close returns, every follower
got a Close event, and the returned error is literally the appendErr
combination of the two failures. -/
theorem Close_spec_witness :
    fmC6.stateFout = some sfOK ∧
    (∃ E, (fmC6.Close).err = some E ∧ E.mentions (.msg "e1") = true) ∧
    (∃ E, (fmC6.Close).err = some E ∧ E.mentions (.msg "e2") = true) ∧
    (fmC6.Close).evs = (fmC6.followers.map fun kv => Event.closeF kv.2) ∧
    (fmC6.Close).err = some (.appended (.msg "e1") (.msg "e2")) := by
  have h := Close_spec fmC6 sfOK rfl rfl rfl rfl rfl rfl
  exact ⟨rfl,
    h.2.2.2.2.2 (⟨"x", "p1"⟩, flwC6a) (by decide) (.msg "e1") rfl,
    h.2.2.2.2.2 (⟨"y", "p2"⟩, flwC6b) (by decide) (.msg "e2") rfl,
    h.1, by decide⟩

theorem Close_releases (fm : FilterManager) (sf : StateFout)
    (hsf : fm.stateFout = some sf) (h1 : sf.seekErr = none) (h2 : sf.seekPos = 0)
    (h3 : sf.truncErr = none) (h4 : sf.encodeErr = none) (h5 : sf.closeErr = none) :
    (fm.Close).fm = { fm with followers := [], filters := [], stateFout := none } := by
  have hd : FilterManager.dumpStates { fm with followers := [], filters := [] } = none := by
    simp [FilterManager.dumpStates, hsf, h1, h2, h3, h4]
  have hfc : fileCloseRes ({ fm with followers := [], filters := [] } : FilterManager).stateFout
      = none := by
    simp only []
    rw [hsf]
    simp [fileCloseRes, h5]
  simp only [FilterManager.Close, hd, hfc]

/-- C4: amended and proved.  After a Close on a manager whose state
file operations succeed, the handle field is nil and the follower table
empty; a second Close then issues no follower events, leaves the
manager unchanged, and — via the nil guard — does not re-dump state nor
touch the released handle, but it does return the os.ErrInvalid error
produced by calling Close on the nil handle (rather than returning no
error as the original claim states). -/
theorem Close_second_call (fm : FilterManager) (sf : StateFout)
    (hsf : fm.stateFout = some sf) (h1 : sf.seekErr = none) (h2 : sf.seekPos = 0)
    (h3 : sf.truncErr = none) (h4 : sf.encodeErr = none) (h5 : sf.closeErr = none) :
    (fm.Close).fm.stateFout = none ∧
    (fm.Close).fm.followers = [] ∧
    ((fm.Close).fm).Close = ⟨some .errInvalid, (fm.Close).fm, []⟩ := by
  rw [Close_releases fm sf hsf h1 h2 h3 h4 h5]
  refine ⟨rfl, rfl, ?_⟩
  simp [FilterManager.Close, FilterManager.dumpStates, fileCloseRes, closeFollowers]

/-- C4: witness.  The amended theorem applied to the concrete idle
manager fmC4 with its well-behaved handle. -/
theorem Close_second_call_witness :
    fmC4.stateFout = some sfOK ∧
    (fmC4.Close).fm.stateFout = none ∧
    (fmC4.Close).fm.followers = [] ∧
    ((fmC4.Close).fm).Close = ⟨some .errInvalid, (fmC4.Close).fm, []⟩ := by
  have h := Close_second_call fmC4 sfOK rfl rfl rfl rfl rfl rfl
  exact ⟨rfl, h.1, h.2.1, h.2.2⟩

theorem cleanLoop_spec (env : Env) :
    ∀ (l st : List (FileName × Nat)) (cells : List (Nat × Int)),
      (∀ kc ∈ l, isStatErr (env.stat kc.1.FilePath) = false) →
      (l.map Prod.snd).Nodup →
      ∃ st' cells', cleanStatesLoop env l st cells = .ok (st', cells') ∧
        st' = st.filter (fun kc => !(decide (kc.1 ∈ l.map Prod.fst) &&
                decide (env.stat kc.1.FilePath = StatRes.notExist))) ∧
        (∀ k c, (k, c) ∈ l → ∀ size v, env.stat k.FilePath = .found size →
            alook cells c = some v →
            alook cells' c = some (if size < v then 0 else v)) ∧
        (∀ c, c ∉ l.map Prod.snd → alook cells' c = alook cells c) := by
  intro l
  induction l with
  | nil =>
    intro st cells _ _
    refine ⟨st, cells, rfl, ?_, ?_, ?_⟩
    · symm
      apply List.filter_eq_self.mpr
      intro a _
      simp
    · intro k c hkc
      exact absurd hkc (List.not_mem_nil _)
    · intro c _
      rfl
  | cons kc l ih =>
    obtain ⟨k, c⟩ := kc
    intro st cells hok hnd
    have hok_head := hok (k, c) (List.mem_cons_self _ _)
    have hok' : ∀ u ∈ l, isStatErr (env.stat u.1.FilePath) = false :=
      fun u hu => hok u (List.mem_cons_of_mem _ hu)
    have hnd2 : (c :: l.map Prod.snd).Nodup := by simpa using hnd
    have hnd' : (l.map Prod.snd).Nodup := (List.nodup_cons.mp hnd2).2
    have hcnotin : c ∉ l.map Prod.snd := (List.nodup_cons.mp hnd2).1
    simp only [cleanStatesLoop]
    cases hstat : env.stat k.FilePath with
    | statErr e =>
      rw [hstat] at hok_head
      exact absurd hok_head (by simp [isStatErr])
    | notExist =>
      obtain ⟨st', cells', heq, hst, hcells, hout⟩ := ih (adel st k) cells hok' hnd'
      refine ⟨st', cells', heq, ?_, ?_, ?_⟩
      · rw [hst]
        unfold adel
        rw [List.filter_filter]
        apply List.filter_congr
        intro a _
        by_cases hak : a.1 = k
        · simp [hak, hstat]
        · have hbeq : (a.1 == k) = false := beq_eq_false_iff_ne.mpr hak
          simp [List.mem_cons, hak, hbeq]
      · intro k2 c2 hkc2 size v hs2 hv2
        rcases List.mem_cons.mp hkc2 with he | hmem
        · have hkk : k2 = k := congrArg Prod.fst he
          rw [hkk, hstat] at hs2
          exact absurd hs2 (by simp)
        · exact hcells k2 c2 hmem size v hs2 hv2
      · intro c2 hc2
        have : c2 ∉ l.map Prod.snd := by
          intro hmem
          exact hc2 (by simp [hmem])
        exact hout c2 this
    | found size =>
      have hstfilter :
          (st.filter fun kc => !(decide (kc.1 ∈ l.map Prod.fst) &&
              decide (env.stat kc.1.FilePath = StatRes.notExist))) =
          (st.filter fun kc => !(decide (kc.1 ∈ ((k, c) :: l).map Prod.fst) &&
              decide (env.stat kc.1.FilePath = StatRes.notExist))) := by
        apply List.filter_congr
        intro a _
        by_cases hak : a.1 = k
        · simp [hak, hstat]
        · have hbeq : (a.1 == k) = false := beq_eq_false_iff_ne.mpr hak
          simp [List.mem_cons, hak, hbeq]
      cases halook : alook cells c with
      | none =>
        obtain ⟨st', cells', heq, hst, hcells, hout⟩ := ih st cells hok' hnd'
        refine ⟨st', cells', heq, ?_, ?_, ?_⟩
        · rw [hst, hstfilter]
        · intro k2 c2 hkc2 size2 v hs2 hv2
          rcases List.mem_cons.mp hkc2 with he | hmem
          · have hcc : c2 = c := congrArg Prod.snd he
            rw [hcc, halook] at hv2
            exact absurd hv2 (by simp)
          · exact hcells k2 c2 hmem size2 v hs2 hv2
        · intro c2 hc2
          have : c2 ∉ l.map Prod.snd := by
            intro hmem
            exact hc2 (by simp [hmem])
          exact hout c2 this
      | some v =>
        dsimp only
        by_cases hlt : size < v
        · rw [if_pos hlt]
          obtain ⟨st', cells', heq, hst, hcells, hout⟩ := ih st (aset cells c 0) hok' hnd'
          refine ⟨st', cells', heq, ?_, ?_, ?_⟩
          · rw [hst, hstfilter]
          · intro k2 c2 hkc2 size2 v2 hs2 hv2
            rcases List.mem_cons.mp hkc2 with he | hmem
            · have hkk : k2 = k := congrArg Prod.fst he
              have hcc : c2 = c := congrArg Prod.snd he
              rw [hkk, hstat] at hs2
              have hsz : size2 = size := by
                simpa using hs2.symm
              have hvv : v2 = v := by
                rw [hcc, halook] at hv2
                simpa using hv2.symm
              rw [hcc, hsz, hvv, if_pos hlt]
              rw [hout c (by rw [hcc] at hkc2; exact hcnotin)]
              exact alook_aset_self _ _ _
            · have hc2c : c2 ≠ c := by
                intro hcc
                apply hcnotin
                rw [← hcc]
                exact List.mem_map_of_mem Prod.snd hmem
              have hv2' : alook (aset cells c 0) c2 = some v2 := by
                rw [alook_aset_ne _ _ _ _ hc2c]
                exact hv2
              exact hcells k2 c2 hmem size2 v2 hs2 hv2'
          · intro c2 hc2
            have hc2c : c2 ≠ c := by
              intro hcc
              exact hc2 (by simp [hcc])
            have : c2 ∉ l.map Prod.snd := by
              intro hmem
              exact hc2 (by simp [hmem])
            rw [hout c2 this]
            exact alook_aset_ne _ _ _ _ hc2c
        · rw [if_neg hlt]
          obtain ⟨st', cells', heq, hst, hcells, hout⟩ := ih st cells hok' hnd'
          refine ⟨st', cells', heq, ?_, ?_, ?_⟩
          · rw [hst, hstfilter]
          · intro k2 c2 hkc2 size2 v2 hs2 hv2
            rcases List.mem_cons.mp hkc2 with he | hmem
            · have hkk : k2 = k := congrArg Prod.fst he
              have hcc : c2 = c := congrArg Prod.snd he
              rw [hkk, hstat] at hs2
              have hsz : size2 = size := by
                simpa using hs2.symm
              have hvv : v2 = v := by
                rw [hcc, halook] at hv2
                simpa using hv2.symm
              rw [hcc, hsz, hvv, if_neg hlt]
              rw [hout c (by rw [hcc] at hkc2; exact hcnotin)]
              exact halook
            · exact hcells k2 c2 hmem size2 v2 hs2 hv2
          · intro c2 hc2
            have : c2 ∉ l.map Prod.snd := by
              intro hmem
              exact hc2 (by simp [hmem])
            exact hout c2 this

/-- C7: confirmed.  For every loaded (filter name, path) key, provided
no stat fails with an error other than not-exists and the loaded cells
are distinct (as gob decoding produces), cleanStates keeps exactly the
entries whose file still exists; for a surviving key whose file size is
smaller than the recorded offset the cell is reset to 0, otherwise the
cell keeps its value; cells not belonging to any entry are untouched. -/
theorem cleanStates_spec (env : Env) (states : List (FileName × Nat))
    (cells : List (Nat × Int))
    (hok : ∀ kc ∈ states, isStatErr (env.stat kc.1.FilePath) = false)
    (hnd : (states.map Prod.snd).Nodup) :
    ∃ cells',
      cleanStates env states cells =
        .ok (states.filter fun kc => !(decide (env.stat kc.1.FilePath = StatRes.notExist)),
             cells') ∧
      (∀ k c, (k, c) ∈ states → ∀ size v, env.stat k.FilePath = .found size →
          alook cells c = some v →
          alook cells' c = some (if size < v then 0 else v)) ∧
      (∀ c, c ∉ states.map Prod.snd → alook cells' c = alook cells c) := by
  obtain ⟨st', cells', heq, hst, hcells, hout⟩ := cleanLoop_spec env states states cells hok hnd
  refine ⟨cells', ?_, hcells, hout⟩
  rw [cleanStates, heq, hst]
  have hfilters : (states.filter fun kc => !(decide (kc.1 ∈ states.map Prod.fst) &&
      decide (env.stat kc.1.FilePath = StatRes.notExist))) =
      (states.filter fun kc => !(decide (env.stat kc.1.FilePath = StatRes.notExist))) := by
    apply List.filter_congr
    intro a ha
    have hmem : a.1 ∈ states.map Prod.fst := List.mem_map_of_mem Prod.fst ha
    simp [hmem]
  rw [hfilters]

/-- Environment for the state-sanitation witness: "gone" is missing,
"small" has size 3, anything else has size 100. -/
def envC7 : Env :=
  { fileId := fun _ => .error (.msg "stat")
    walk := fun _ => []
    pmatch := fun _ _ => some false
    basename := fun p => p
    dirname := fun _ => ""
    clean := fun p => p
    stat := fun p => if p = "gone" then .notExist
                     else if p = "small" then .found 3 else .found 100
    mkErr := fun _ => none
    startErr := fun _ => none
    newCloseErr := fun _ => none }

/-- Loaded snapshot: a deleted file at offset 7, a file that shrank to
3 below its offset 10, and a file of size 100 at offset 10. -/
def statesC7 : List (FileName × Nat) :=
  [(⟨"f", "gone"⟩, 0), (⟨"f", "small"⟩, 1), (⟨"f", "big"⟩, 2)]

/-- The three offset cells of statesC7. -/
def cellsC7 : List (Nat × Int) :=
  [(0, 7), (1, 10), (2, 10)]

/-- C7: witness.  The theorem applied at the concrete snapshot: the
missing file's entry is dropped, the shrunk file's cell becomes 0, the
healthy file's cell stays 10. -/
theorem cleanStates_spec_witness :
    (∀ kc ∈ statesC7, isStatErr (envC7.stat kc.1.FilePath) = false) ∧
    (statesC7.map Prod.snd).Nodup ∧
    ∃ cells',
      cleanStates envC7 statesC7 cellsC7 =
        .ok (statesC7.filter fun kc =>
              !(decide (envC7.stat kc.1.FilePath = StatRes.notExist)), cells') ∧
      (∀ k c, (k, c) ∈ statesC7 → ∀ size v, envC7.stat k.FilePath = .found size →
          alook cellsC7 c = some v →
          alook cells' c = some (if size < v then 0 else v)) ∧
      (∀ c, c ∉ statesC7.map Prod.snd → alook cells' c = alook cellsC7 c) := by
  exact ⟨by decide, by decide, cleanStates_spec envC7 statesC7 cellsC7 (by decide) (by decide)⟩

/-- A filter is passed over by the RenameFollower loop: either no
follower occupies its key for the path, or the identity search of its
directory comes back empty without error. -/
def skipsFilter (env : Env) (fm : FilterManager) (fpath : String) (id : Nat)
    (v : filter) : Prop :=
  alook fm.followers ⟨v.bname, fpath⟩ = none ∨
  findFileIdGo env v.mtchs id (env.walk v.loc) = .ok none

theorem renameLoop_skips (env : Env) (fpath : String) (id : Nat) :
    ∀ (pre l : List filter) (i : Nat) (fm : FilterManager),
      (∀ v ∈ pre, skipsFilter env fm fpath id v) →
      renameLoop env fpath id (pre ++ l) i fm =
        renameLoop env fpath id l (i + pre.length) fm := by
  intro pre
  induction pre with
  | nil => intro l i fm _; simp
  | cons v pre' ih =>
    intro l i fm hsk
    have hv := hsk v (List.mem_cons_self _ _)
    have harith : i + 1 + pre'.length = i + (v :: pre').length := by
      simp only [List.length_cons]
      omega
    rw [List.cons_append]
    simp only [renameLoop]
    cases halook : alook fm.followers ⟨v.bname, fpath⟩ with
    | none =>
      rw [ih l (i + 1) fm (fun u hu => hsk u (List.mem_cons_of_mem _ hu)), harith]
    | some flw =>
      dsimp only
      rcases hv with h | h
      · rw [halook] at h
        exact absurd h (by simp)
      · rw [h]
        dsimp only
        rw [ih l (i + 1) fm (fun u hu => hsk u (List.mem_cons_of_mem _ hu)), harith]

/-- C3: amended and proved.  When the identity search of RenameFollower
finds newPath under the follower's original filter (same filter id,
preceding filters skipped) and newPath differs from oldPath, the
operation errors nowhere, issues no close or start (the follower is
neither closed nor restarted), registers the follower and the original
offset cell under (filter name, newPath), removes the old key from the
follower table, and leaves every cell value unchanged — but the old
key remains in the state map (still holding the same cell), and the
follower object still records the old path, contrary to the original
claim. -/
theorem RenameFollower_same_filter_rekey (env : Env) (fm : FilterManager)
    (fpath : String) (pre rest : List filter) (v : filter) (flw : Follower)
    (p : String) (st : Nat) (id : Nat)
    (hfilters : fm.filters = pre ++ v :: rest)
    (hscan : renameScan fpath fm.followers = some id)
    (hskips : ∀ u ∈ pre, skipsFilter env fm fpath id u)
    (hflw : alook fm.followers ⟨v.bname, fpath⟩ = some flw)
    (hfind : findFileIdGo env v.mtchs id (env.walk v.loc) = .ok (some p))
    (hne : p ≠ fpath)
    (hfid : flw.filterId = (pre.length : Int))
    (hst : alook fm.states ⟨v.bname, fpath⟩ = some st) :
    (fm.RenameFollower env fpath).err = none ∧
    (fm.RenameFollower env fpath).evs = [] ∧
    alook (fm.RenameFollower env fpath).fm.followers ⟨v.bname, p⟩ =
      some { flw with name := ⟨v.bname, fpath⟩ } ∧
    alook (fm.RenameFollower env fpath).fm.followers ⟨v.bname, fpath⟩ = none ∧
    alook (fm.RenameFollower env fpath).fm.states ⟨v.bname, p⟩ = some st ∧
    alook (fm.RenameFollower env fpath).fm.states ⟨v.bname, fpath⟩ = some st ∧
    (fm.RenameFollower env fpath).fm.cells = fm.cells := by
  have hkne : (⟨v.bname, fpath⟩ : FileName) ≠ ⟨v.bname, p⟩ := by
    intro h
    injection h with h1 h2
    exact hne h2.symm
  have hkne' : (⟨v.bname, p⟩ : FileName) ≠ ⟨v.bname, fpath⟩ := fun h => hkne h.symm
  simp only [FilterManager.RenameFollower, hscan]
  rw [hfilters, renameLoop_skips env fpath id pre (v :: rest) 0 fm hskips]
  simp only [renameLoop]
  rw [hflw]
  dsimp only
  rw [hfind]
  dsimp only
  rw [if_neg hne, if_neg (by rw [hfid]; simp)]
  rw [hst]
  dsimp only
  refine ⟨rfl, rfl, ?_, ?_, ?_, ?_, rfl⟩
  · exact alook_aset_self _ _ _
  · rw [alook_aset_ne _ _ _ _ hkne]
    exact alook_adel_self _ _
  · exact alook_aset_self _ _ _
  · rw [alook_aset_ne _ _ _ _ hkne]
    exact hst

/-- C3: witness.  The amended rekey theorem applied to the concrete
manager fmC3, where the walk finds "new" with the follower's identity
under its own filter. -/
theorem RenameFollower_same_filter_rekey_witness :
    fmC3.filters = [] ++ [{ bname := "f", loc := "/d", mtchs := ["*"], lh := 0 }] ∧
    renameScan "old" fmC3.followers = some 7 ∧
    (FilterManager.RenameFollower envRN fmC3 "old").err = none ∧
    (FilterManager.RenameFollower envRN fmC3 "old").evs = [] ∧
    alook (FilterManager.RenameFollower envRN fmC3 "old").fm.followers ⟨"f", "new"⟩ =
      some { flwC3 with name := ⟨"f", "old"⟩ } ∧
    alook (FilterManager.RenameFollower envRN fmC3 "old").fm.followers ⟨"f", "old"⟩ = none ∧
    alook (FilterManager.RenameFollower envRN fmC3 "old").fm.states ⟨"f", "new"⟩ = some 0 ∧
    alook (FilterManager.RenameFollower envRN fmC3 "old").fm.states ⟨"f", "old"⟩ = some 0 ∧
    (FilterManager.RenameFollower envRN fmC3 "old").fm.cells = fmC3.cells := by
  have h := RenameFollower_same_filter_rekey envRN fmC3 "old" []
    [] { bname := "f", loc := "/d", mtchs := ["*"], lh := 0 } flwC3 "new" 0 7
    (by decide) (by decide) (by intro u hu; exact absurd hu (List.not_mem_nil u))
    (by decide) (by decide) (by decide) (by decide) (by decide)
  exact ⟨by decide, by decide, h.1, h.2.1, h.2.2.1, h.2.2.2.1, h.2.2.2.2.1,
    h.2.2.2.2.2.1, h.2.2.2.2.2.2⟩

/-- C5: confirmed.  When the identity search of RenameFollower finds
newPath under a filter whose index differs from the follower's recorded
filter id (preceding filters skipped, the old state present, the old
close succeeding, and the new follower constructible and startable),
the operation closes the old follower, removes it and its old state
entry, sets the offset cell's value to 0, and creates, starts and
registers a fresh follower under (that filter's name, newPath) carrying
that filter's index and the zeroed cell. -/
theorem RenameFollower_migration (env : Env) (fm : FilterManager)
    (fpath : String) (pre rest : List filter) (v : filter) (flw : Follower)
    (p : String) (st : Nat) (id id2 : Nat)
    (hfilters : fm.filters = pre ++ v :: rest)
    (hscan : renameScan fpath fm.followers = some id)
    (hskips : ∀ u ∈ pre, skipsFilter env fm fpath id u)
    (hflw : alook fm.followers ⟨v.bname, fpath⟩ = some flw)
    (hfind : findFileIdGo env v.mtchs id (env.walk v.loc) = .ok (some p))
    (hne : p ≠ fpath)
    (hfid : flw.filterId ≠ (pre.length : Int))
    (hst : alook fm.states ⟨v.bname, fpath⟩ = some st)
    (hclose : flw.closeErr = none)
    (hid2 : env.fileId p = .ok id2)
    (hnoex : alook fm.followers ⟨v.bname, p⟩ = none)
    (hmk : env.mkErr p = none)
    (hstart : env.startErr p = none) :
    (fm.RenameFollower env fpath).err = none ∧
    (fm.RenameFollower env fpath).evs =
      [.closeF flw,
       .startF { name := ⟨v.bname, p⟩, fid := id2, filterId := (pre.length : Int),
                 state := st, closeErr := env.newCloseErr p, lh := v.lh }] ∧
    alook (fm.RenameFollower env fpath).fm.followers ⟨v.bname, p⟩ =
      some { name := ⟨v.bname, p⟩, fid := id2, filterId := (pre.length : Int),
             state := st, closeErr := env.newCloseErr p, lh := v.lh } ∧
    alook (fm.RenameFollower env fpath).fm.followers ⟨v.bname, fpath⟩ = none ∧
    alook (fm.RenameFollower env fpath).fm.states ⟨v.bname, fpath⟩ = none ∧
    alook (fm.RenameFollower env fpath).fm.cells st = some 0 := by
  have hkne : (⟨v.bname, fpath⟩ : FileName) ≠ ⟨v.bname, p⟩ := by
    intro h
    injection h with h1 h2
    exact hne h2.symm
  simp only [FilterManager.RenameFollower, hscan]
  rw [hfilters, renameLoop_skips env fpath id pre (v :: rest) 0 fm hskips, Nat.zero_add]
  simp only [renameLoop]
  rw [hflw]
  dsimp only
  rw [hfind]
  dsimp only
  rw [if_neg hne, if_pos hfid, hst]
  dsimp only
  rw [hclose]
  dsimp only
  simp only [FilterManager.addFollower, hid2]
  rw [show alook (adel fm.followers ⟨v.bname, fpath⟩) ⟨v.bname, p⟩ = none from
    alook_adel_none _ _ _ hnoex]
  simp only [addFollowerLaunch, hmk, hstart]
  refine ⟨trivial, by simp, ?_, ?_, ?_, ?_⟩
  · exact alook_aset_self _ _ _
  · rw [alook_aset_ne _ _ _ _ hkne]
    exact alook_adel_self _ _
  · exact alook_adel_self _ _
  · exact alook_aset_self _ _ _

/-- C5: witness.  The migration theorem applied to the concrete fmC10:
the old follower (recorded filter id 3) is closed, its cell zeroed, and
a fresh follower for filter 0 registered at ("g", new). -/
theorem RenameFollower_migration_witness :
    renameScan "old" fmC10.followers = some 7 ∧
    flwC10.filterId ≠ ((0 : Nat) : Int) ∧
    (FilterManager.RenameFollower envRN fmC10 "old").err = none ∧
    (FilterManager.RenameFollower envRN fmC10 "old").evs =
      [.closeF flwC10,
       .startF { name := ⟨"g", "new"⟩, fid := 7, filterId := 0,
                 state := 0, closeErr := envRN.newCloseErr "new", lh := 0 }] ∧
    alook (FilterManager.RenameFollower envRN fmC10 "old").fm.followers ⟨"g", "new"⟩ =
      some { name := ⟨"g", "new"⟩, fid := 7, filterId := 0,
             state := 0, closeErr := envRN.newCloseErr "new", lh := 0 } ∧
    alook (FilterManager.RenameFollower envRN fmC10 "old").fm.followers ⟨"g", "old"⟩ = none ∧
    alook (FilterManager.RenameFollower envRN fmC10 "old").fm.states ⟨"g", "old"⟩ = none ∧
    alook (FilterManager.RenameFollower envRN fmC10 "old").fm.cells 0 = some 0 := by
  have h := RenameFollower_migration envRN fmC10 "old" []
    [] { bname := "g", loc := "/d", mtchs := ["*"], lh := 0 } flwC10 "new" 0 7 7
    (by decide) (by decide) (by intro u hu; exact absurd hu (List.not_mem_nil u))
    (by decide) (by decide) (by decide) (by decide) (by decide) (by decide)
    (by decide) (by decide) (by decide) (by decide)
  exact ⟨by decide, by decide, h.1, h.2.1, h.2.2.1, h.2.2.2.1, h.2.2.2.2.1, h.2.2.2.2.2⟩

theorem pairedB_iff (fm : FilterManager) :
    pairedB fm = true ↔ ∀ kf ∈ fm.followers, alook fm.states kf.1 = some kf.2.state := by
  simp [pairedB, List.all_eq_true]

theorem pairedB_adel (fm : FilterManager) (k : FileName) (h : pairedB fm = true) :
    pairedB { fm with followers := adel fm.followers k,
                      states := adel fm.states k } = true := by
  rw [pairedB_iff] at h ⊢
  intro kf hkf
  dsimp only at hkf ⊢
  obtain ⟨hmem, hne⟩ := mem_adel _ _ _ hkf
  rw [alook_adel_ne _ _ _ hne]
  exact h kf hmem

theorem removeLoop_paired (fpath : String) :
    ∀ (fs : List filter) (fm : FilterManager) (evs : List Event),
      pairedB fm = true → pairedB (removeLoop fpath fs fm evs).fm = true := by
  intro fs
  induction fs with
  | nil => intro fm evs h; exact h
  | cons v rest ih =>
    intro fm evs h
    simp only [removeLoop]
    cases halook : alook fm.followers ⟨v.bname, fpath⟩ with
    | none => exact ih fm evs h
    | some fl =>
      dsimp only
      cases hc : fl.closeErr with
      | some e => exact pairedB_adel fm ⟨v.bname, fpath⟩ h
      | none =>
        dsimp only
        exact ih _ _ (pairedB_adel fm ⟨v.bname, fpath⟩ h)

/-- C10: amended and proved.  The pairing invariant (every key in the
follower table appears in the state map with the cell its follower
holds) is preserved by AddFilter and by RemoveFollower, but it is not
preserved by every public operation: RenameFollower's migration branch
(and the stale-follower replacement path inside follower creation)
registers a follower whose key has no state-map entry, as the
counterexample shows. -/
theorem pairing_preserved_AddFilter_RemoveFollower (env : Env) (fm : FilterManager)
    (bname loc : String) (mtchs : List String) (lh : Nat) (fpath : String)
    (h : pairedB fm = true) :
    pairedB (fm.AddFilter env bname loc mtchs lh) = true ∧
    pairedB (fm.RemoveFollower fpath).fm = true := by
  constructor
  · exact h
  · exact removeLoop_paired fpath fm.filters fm [] h

/-- C10: witness.  Pairing preservation applied to the concrete fmC3
for a filter addition and a follower removal. -/
theorem pairing_preserved_witness :
    pairedB fmC3 = true ∧
    pairedB (fmC3.AddFilter envRN "z" "/z" ["*"] 0) = true ∧
    pairedB (fmC3.RemoveFollower "old").fm = true := by
  have h := pairing_preserved_AddFilter_RemoveFollower envRN fmC3 "z" "/z" ["*"] 0 "old"
    (by decide)
  exact ⟨by decide, h.1, h.2⟩
